import Mathlib

/-!
Verification development for the JS-Bot repository (src/bot.py).

The bot's core is embedded shallowly: Python strings are lists of
characters, the two MongoDB collections are association lists, the
in-memory user_state dict is an association list keyed by user id, and
the OpenAI completion collaborator is modelled by an explicit
`Except` argument carrying either the returned message content or the
exception text.  Each function below mirrors the corresponding lines
of src/bot.py.
-/

/-- Python strings are sequences of characters. -/
abbrev Str := List Char

/-- Python str.strip: drop whitespace from both ends. -/
def pyStrip (s : Str) : Str :=
  ((s.dropWhile Char.isWhitespace).reverse.dropWhile Char.isWhitespace).reverse

/-- Python str.upper (ASCII model). -/
def pyUpper (s : Str) : Str := s.map Char.toUpper

/-- Python str.lower (ASCII model). -/
def pyLower (s : Str) : Str := s.map Char.toLower

/-- Fuel-indexed worker for Python str.split(sep); the fuel dominates the
length of the string being scanned, so the recursion is structural. -/
def pySplitAux (sep : Str) (fuel : Nat) (s : Str) : List Str :=
  match fuel, s with
  | _, [] => [[]]
  | 0, x :: xs => [x :: xs]
  | fuel + 1, x :: xs =>
    if sep ≠ [] ∧ sep.isPrefixOf (x :: xs) then
      [] :: pySplitAux sep fuel ((x :: xs).drop sep.length)
    else
      match pySplitAux sep fuel xs with
      | [] => [[x]]
      | y :: ys => (x :: y) :: ys

/-- Python str.split(sep) for a non-empty separator: split on every
occurrence of sep, scanning left to right. -/
def pySplit (sep s : Str) : List Str := pySplitAux sep s.length s

/-- Literal marker "Answer:" used by generate_quiz (src/bot.py line 90). -/
def answerMarker : Str := "Answer:".data

/-- Contents of the two MongoDB collections: summaries maps a topic to a
summary, quizzes maps a topic to a (question, answer) pair. -/
structure CacheState where
  summaries : List (Str × Str)
  quizzes : List (Str × Str × Str)
deriving DecidableEq

/-- find_one on the summaries collection: first record whose topic field
matches (src/bot.py line 39). -/
def findOneSummary (l : List (Str × Str)) (topic : Str) : Option Str :=
  (l.find? (fun p => p.1 == topic)).map (fun p => p.2)

/-- find_one on the quizzes collection (src/bot.py line 66). -/
def findOneQuiz (l : List (Str × Str × Str)) (topic : Str) : Option (Str × Str) :=
  (l.find? (fun p => p.1 == topic)).map (fun p => (p.2.1, p.2.2))

/-- insert_one on the quizzes collection (src/bot.py line 93). -/
def putQuiz (c : CacheState) (topic q a : Str) : CacheState :=
  { c with quizzes := c.quizzes ++ [(topic, q, a)] }

/-- Cache lookup returning the stored (question, answer) pair. -/
def getQuiz (c : CacheState) (topic : Str) : Option (Str × Str) :=
  findOneQuiz c.quizzes topic

/-- Result of summarize_text: the returned string, the cache afterwards,
and whether a completion request was issued. -/
structure SummaryResult where
  summary : Str
  newState : CacheState
  calledLLM : Bool
deriving DecidableEq

/-- summarize_text, src/bot.py lines 38-62.  The resp argument models the
completion collaborator: ok carries the message content, error the
exception text.  A cache hit returns the stored summary without touching
the collaborator; on a miss the collaborator is consulted, a successful
response is stripped, cached and returned, and a failure is turned into
an error-marker string that is not cached. -/
def summarize_text (st : CacheState) (topic : Str) (resp : Except Str Str) : SummaryResult :=
  match findOneSummary st.summaries topic with
  | some s => ⟨s, st, false⟩
  | none =>
    match resp with
    | Except.ok content =>
      let summary := pyStrip content
      ⟨summary, { st with summaries := st.summaries ++ [(topic, summary)] }, true⟩
    | Except.error e =>
      ⟨"❌ Error during summarization: ".data ++ e, st, true⟩

/-- Result of generate_quiz: question, answer letter, cache afterwards,
and whether a completion request was issued. -/
structure QuizResult where
  question : Str
  answer : Str
  newState : CacheState
  calledLLM : Bool
deriving DecidableEq

/-- generate_quiz, src/bot.py lines 65-96.  On a cache miss and a
successful completion, the stripped response is split on the literal
"Answer:"; the part before the first marker (stripped) is the question,
the part between the first and second markers (stripped, upper-cased) is
the answer, defaulting to "A" when the marker is absent; the pair is
cached.  On a collaborator failure a fixed pair is returned uncached. -/
def generate_quiz (st : CacheState) (topic : Str) (resp : Except Str Str) : QuizResult :=
  match findOneQuiz st.quizzes topic with
  | some (q, a) => ⟨q, a, st, false⟩
  | none =>
    match resp with
    | Except.ok content =>
      let full_quiz := pyStrip content
      let parts := pySplit answerMarker full_quiz
      let question := pyStrip (parts.headD [])
      let answer := if parts.length > 1 then pyUpper (pyStrip (parts.getD 1 [])) else "A".data
      ⟨question, answer, { st with quizzes := st.quizzes ++ [(topic, question, answer)] }, true⟩
    | Except.error _ =>
      ⟨"❌ Error generating quiz.".data, "A".data, st, true⟩

/-- One user's session record: the Python dict {"topic": t, "answer": a}
of src/bot.py line 135, modelled as a field-name/value association list. -/
abbrev Session := List (Str × Str)

/-- The in-memory user_state dict (src/bot.py line 35), keyed by user id. -/
abbrev UserState := List (Nat × Session)

/-- Python dict lookup user_state[user_id]. -/
def mapGet (m : UserState) (uid : Nat) : Option Session :=
  (m.find? (fun p => p.1 == uid)).map (fun p => p.2)

/-- Python del user_state[user_id] (src/bot.py line 121). -/
def mapDel (m : UserState) (uid : Nat) : UserState :=
  m.filter (fun p => p.1 != uid)

/-- Python dict assignment user_state[user_id] = s (src/bot.py line 135);
observationally the key is bound to s and all other keys are unchanged. -/
def mapSet (m : UserState) (uid : Nat) (s : Session) : UserState :=
  (uid, s) :: mapDel m uid

/-- Field lookup inside one session dict. -/
def dictGet (d : Session) (k : Str) : Option Str :=
  (d.find? (fun p => p.1 == k)).map (fun p => p.2)

/-- Guard of src/bot.py line 109: the user has an entry in user_state and
that entry has an answer field; when both hold, the stored answer. -/
def pendingAnswer (m : UserState) (uid : Nat) : Option Str :=
  (mapGet m uid).bind (fun s => dictGet s ("answer".data))

/-- Session Tracker setPending operation: the dict write of line 135. -/
def setPending (m : UserState) (uid : Nat) (topic answer : Str) : UserState :=
  mapSet m uid [("topic".data, topic), ("answer".data, answer)]

/-- Session Tracker takeIfPending operation: the check-and-clear performed
by lines 109 and 121 — read the entry for uid and remove it if present. -/
def takeIfPending (m : UserState) (uid : Nat) : Option Session × UserState :=
  match mapGet m uid with
  | some s => (some s, mapDel m uid)
  | none => (none, m)

/-- Whole-program mutable state: the two collections plus user_state. -/
structure BotState where
  caches : CacheState
  user_state : UserState
deriving DecidableEq

/-- Result of one handle_message call: the replies sent, in order, and the
state afterwards. -/
structure HandleResult where
  replies : List Str
  state : BotState
deriving DecidableEq

/-- Reply of src/bot.py line 114. -/
def correctReply : Str := "✅ Correct! 🎉".data

/-- Reply of src/bot.py line 117. -/
def incorrectReply (correct : Str) : Str :=
  "❌ Incorrect. The correct answer was: *".data ++ correct ++ "*".data

/-- Reply of src/bot.py line 126. -/
def learningReply (topic : Str) : Str :=
  "📘 Learning about *".data ++ topic ++ "*...".data

/-- Reply of src/bot.py line 131. -/
def quizIntroReply : Str := "🧠 Here's a quiz for practice:".data

/-- handle_message, src/bot.py lines 105-135: one inbound text event.
If the user has a pending session with an answer field, the stripped
upper-cased text is compared to the stripped upper-cased stored answer,
one reply is sent and the session is deleted unconditionally.  Otherwise
the lower-cased text is a new topic: the summary and quiz are produced
(consulting the caches, falling back on the collaborator responses
summaryResp and quizResp) and a fresh session is stored. -/
def handle_message (st : BotState) (user_id : Nat) (text0 : Str)
    (summaryResp quizResp : Except Str Str) : HandleResult :=
  let text := pyStrip text0
  match pendingAnswer st.user_state user_id with
  | some ans =>
    let correct := pyUpper (pyStrip ans)
    let user_answer := pyUpper (pyStrip text)
    let reply := if user_answer = correct then correctReply else incorrectReply correct
    ⟨[reply], ⟨st.caches, mapDel st.user_state user_id⟩⟩
  | none =>
    let topic := pyLower text
    let sr := summarize_text st.caches topic summaryResp
    let qr := generate_quiz sr.newState topic quizResp
    ⟨[learningReply topic, sr.summary, quizIntroReply, qr.question],
     ⟨qr.newState, mapSet st.user_state user_id [("topic".data, topic), ("answer".data, qr.answer)]⟩⟩

/-! ### Lemmas about the string helpers -/

lemma pySplitAux_nil (sep : Str) (f : Nat) : pySplitAux sep f [] = [[]] := by
  cases f <;> rfl

lemma pySplitAux_succ (sep : Str) (f : Nat) (x : Char) (xs : Str) :
    pySplitAux sep (f + 1) (x :: xs) =
      if sep ≠ [] ∧ sep.isPrefixOf (x :: xs) then
        [] :: pySplitAux sep f ((x :: xs).drop sep.length)
      else
        match pySplitAux sep f xs with
        | [] => [[x]]
        | y :: ys => (x :: y) :: ys := rfl

lemma pySplitAux_fuel (sep : Str) :
    ∀ f g xs, xs.length ≤ f → xs.length ≤ g → pySplitAux sep f xs = pySplitAux sep g xs := by
  intro f
  induction f with
  | zero =>
    intro g xs hf _
    have hx : xs = [] := List.length_eq_zero.mp (Nat.le_zero.mp hf)
    subst hx
    rw [pySplitAux_nil, pySplitAux_nil]
  | succ f ih =>
    intro g xs hf hg
    cases xs with
    | nil => rw [pySplitAux_nil, pySplitAux_nil]
    | cons x xs =>
      cases g with
      | zero => simp at hg
      | succ g =>
        have hf' : xs.length ≤ f := by simp only [List.length_cons] at hf; omega
        have hg' : xs.length ≤ g := by simp only [List.length_cons] at hg; omega
        rw [pySplitAux_succ, pySplitAux_succ]
        by_cases h : sep ≠ [] ∧ sep.isPrefixOf (x :: xs)
        · rw [if_pos h, if_pos h]
          have hsep : 1 ≤ sep.length := by
            cases hs : sep with
            | nil => exact absurd hs h.1
            | cons a l => simp
          have hlen : ((x :: xs).drop sep.length).length ≤ xs.length := by
            rw [List.length_drop]
            simp only [List.length_cons]
            omega
          rw [ih g _ (Nat.le_trans hlen hf') (Nat.le_trans hlen hg')]
        · rw [if_neg h, if_neg h]
          rw [ih g xs hf' hg']

lemma pySplit_nil (sep : Str) : pySplit sep [] = [[]] := rfl

lemma pySplit_cons (sep : Str) (x : Char) (xs : Str) :
    pySplit sep (x :: xs) =
      if sep ≠ [] ∧ sep.isPrefixOf (x :: xs) then
        [] :: pySplit sep ((x :: xs).drop sep.length)
      else
        match pySplit sep xs with
        | [] => [[x]]
        | y :: ys => (x :: y) :: ys := by
  show pySplitAux sep (xs.length + 1) (x :: xs) = _
  rw [pySplitAux_succ]
  by_cases h : sep ≠ [] ∧ sep.isPrefixOf (x :: xs)
  · rw [if_pos h, if_pos h]
    have hsep : 1 ≤ sep.length := by
      cases hs : sep with
      | nil => exact absurd hs h.1
      | cons a l => simp
    have hlen : ((x :: xs).drop sep.length).length ≤ xs.length := by
      rw [List.length_drop]
      simp only [List.length_cons]
      omega
    rw [pySplitAux_fuel sep xs.length ((x :: xs).drop sep.length).length
      ((x :: xs).drop sep.length) hlen le_rfl]
    rfl
  · rw [if_neg h, if_neg h]
    rfl

/-- A list with no occurrence of the separator splits into itself alone. -/
lemma pySplit_single (sep : Str) : ∀ xs, ¬ sep <:+: xs → pySplit sep xs = [xs] := by
  intro xs
  induction xs with
  | nil => intro _; exact pySplit_nil sep
  | cons x xs ih =>
    intro h
    rw [pySplit_cons]
    have hcond : ¬ (sep ≠ [] ∧ sep.isPrefixOf (x :: xs)) := by
      rintro ⟨-, hp⟩
      have hpre : sep <+: (x :: xs) := by
        rw [← List.isPrefixOf_iff_prefix]; exact hp
      exact h hpre.isInfix
    rw [if_neg hcond]
    have hx : ¬ sep <:+: xs := by
      rintro ⟨s, t, hst⟩
      exact h ⟨x :: s, t, by rw [← hst]; rfl⟩
    rw [ih hx]

/-- Splitting a list whose first separator occurrence is the displayed one:
the part before it is the first field, and splitting continues after it.
The hypothesis says the separator does not occur anywhere that starts
strictly before the displayed occurrence. -/
lemma pySplit_first (sep rest : Str) :
    ∀ a : Str, sep ≠ [] → ¬ sep <:+: (a ++ sep.dropLast) →
      pySplit sep (a ++ (sep ++ rest)) = a :: pySplit sep rest := by
  intro a
  induction a with
  | nil =>
    intro hsep _
    obtain ⟨y, ys, rfl⟩ := List.exists_cons_of_ne_nil hsep
    simp only [List.nil_append]
    rw [List.cons_append, pySplit_cons]
    have hpre : (y :: ys).isPrefixOf (y :: (ys ++ rest)) = true := by
      rw [List.isPrefixOf_iff_prefix, ← List.cons_append]
      exact List.prefix_append (y :: ys) rest
    rw [if_pos ⟨List.cons_ne_nil y ys, hpre⟩]
    rw [show y :: (ys ++ rest) = (y :: ys) ++ rest from rfl, List.drop_left]
  | cons x a ih =>
    intro hsep hno
    rw [List.cons_append, pySplit_cons]
    have h3 : sep.dropLast ++ [sep.getLast hsep] = sep :=
      List.dropLast_append_getLast hsep
    have hcond : ¬ (sep ≠ [] ∧ sep.isPrefixOf (x :: (a ++ (sep ++ rest)))) := by
      rintro ⟨-, hp⟩
      have h1 : sep <+: (x :: (a ++ (sep ++ rest))) := by
        rw [← List.isPrefixOf_iff_prefix]; exact hp
      have h4 : sep.dropLast ++ (sep.getLast hsep :: rest) = sep ++ rest := by
        conv_rhs => rw [← h3]
        simp [List.append_assoc]
      have h2 : ((x :: a) ++ sep.dropLast) ++ ([sep.getLast hsep] ++ rest)
          = x :: (a ++ (sep ++ rest)) := by
        simp only [List.cons_append, List.append_assoc, List.nil_append]
        rw [h4]
      have hv : ((x :: a) ++ sep.dropLast) <+: (x :: (a ++ (sep ++ rest))) :=
        ⟨[sep.getLast hsep] ++ rest, h2⟩
      have hlen : sep.length ≤ ((x :: a) ++ sep.dropLast).length := by
        have h4 : sep.dropLast.length = sep.length - 1 := List.length_dropLast sep
        have h5 : 1 ≤ sep.length := by
          cases hs : sep with
          | nil => exact absurd hs hsep
          | cons b l => simp
        simp only [List.length_append, List.length_cons, h4]
        omega
      have hfin : sep <+: ((x :: a) ++ sep.dropLast) :=
        List.prefix_of_prefix_length_le h1 hv hlen
      exact hno hfin.isInfix
    rw [if_neg hcond]
    have hno' : ¬ sep <:+: (a ++ sep.dropLast) := by
      rintro ⟨s, t, hst⟩
      refine hno ⟨x :: s, t, ?_⟩
      simp only [List.cons_append, List.append_assoc] at hst ⊢
      rw [hst]
    rw [ih hsep hno']

lemma dropWhile_dropWhile (p : Char → Bool) (l : Str) :
    (l.dropWhile p).dropWhile p = l.dropWhile p := by
  induction l with
  | nil => rfl
  | cons x l ih =>
    by_cases h : p x
    · simp only [List.dropWhile_cons, h, if_true]
      exact ih
    · simp only [List.dropWhile_cons, h, if_false, Bool.false_eq_true]

lemma dropWhile_head_false (p : Char → Bool) :
    ∀ (l : Str) (x : Char) (xs : Str), l.dropWhile p = x :: xs → p x = false := by
  intro l
  induction l with
  | nil => intro x xs h; exact absurd h (by simp)
  | cons a l ih =>
    intro x xs h
    by_cases ha : p a
    · rw [List.dropWhile_cons, if_pos ha] at h
      exact ih x xs h
    · rw [List.dropWhile_cons, if_neg ha] at h
      cases h
      exact Bool.not_eq_true _ |>.mp ha

/-- pyStrip is idempotent: stripping a stripped string changes nothing. -/
lemma pyStrip_idem (s : Str) : pyStrip (pyStrip s) = pyStrip s := by
  unfold pyStrip
  generalize hL : s.dropWhile Char.isWhitespace = L
  cases hR : L.reverse.dropWhile Char.isWhitespace with
  | nil => simp
  | cons r rs =>
    cases hRr : (r :: rs).reverse with
    | nil => exact absurd hRr (by simp)
    | cons b bs =>
      have hsuf : (r :: rs) <:+ L.reverse := by
        rw [← hR]; exact List.dropWhile_suffix _
      obtain ⟨u, hu⟩ := hsuf
      have h5 := congrArg List.reverse hu
      rw [List.reverse_append, List.reverse_reverse] at h5
      rw [hRr] at h5
      have hWb : Char.isWhitespace b = false := by
        refine dropWhile_head_false Char.isWhitespace s b (bs ++ u.reverse) ?_
        rw [hL, ← h5]
        rfl
      rw [List.dropWhile_cons, if_neg (by simp [hWb])]
      have hbb : (b :: bs).reverse = r :: rs := by
        rw [← hRr, List.reverse_reverse]
      rw [hbb]
      have hrr : List.dropWhile Char.isWhitespace (r :: rs) = r :: rs := by
        rw [← hR]
        exact dropWhile_dropWhile _ _
      rw [hrr, hRr]

/-- find? over an append when the first part has no match. -/
lemma find_app_none {α : Type} {p : α → Bool} {l₁ : List α}
    (h : l₁.find? p = none) (l₂ : List α) : (l₁ ++ l₂).find? p = l₂.find? p := by
  rw [List.find?_append, h, Option.none_or]

/-! ### Lemmas about the user_state map -/

lemma find_filter_ne (m : UserState) (u : Nat) :
    (List.filter (fun p => p.1 != u) m).find? (fun p => p.1 == u) = none := by
  rw [List.find?_eq_none]
  intro a ha
  have h2 := (List.mem_filter.mp ha).2
  simp only [bne_iff_ne, ne_eq] at h2
  simp [h2]

lemma mapGet_mapSet_self (m : UserState) (u : Nat) (s : Session) :
    mapGet (mapSet m u s) u = some s := by
  simp [mapGet, mapSet, List.find?_cons_of_pos]

lemma mapGet_mapDel_self (m : UserState) (u : Nat) : mapGet (mapDel m u) u = none := by
  simp [mapGet, mapDel, find_filter_ne]

lemma mapDel_mapSet (m : UserState) (u : Nat) (s : Session) :
    mapDel (mapSet m u s) u = mapDel m u := by
  simp only [mapDel, mapSet, List.filter_cons]
  rw [if_neg (by simp)]
  rw [List.filter_filter]
  simp

lemma dictGet_pending (t a : Str) :
    dictGet [("topic".data, t), ("answer".data, a)] ("answer".data) = some a := by
  have hneg : ¬((("topic".data, t) : Str × Str).1 == "answer".data) = true := by
    show ¬(("topic".data : Str) == "answer".data) = true
    decide
  have hpos : ((("answer".data, a) : Str × Str).1 == "answer".data) = true := by
    show (("answer".data : Str) == "answer".data) = true
    decide
  rw [dictGet,
    @List.find?_cons_of_neg (Str × Str) (fun p => p.1 == ("answer".data : Str))
      ("topic".data, t) [("answer".data, a)] hneg,
    @List.find?_cons_of_pos (Str × Str) (fun p => p.1 == ("answer".data : Str))
      ("answer".data, a) [] hpos]
  rfl

lemma pendingAnswer_setPending (m : UserState) (u : Nat) (t a : Str) :
    pendingAnswer (setPending m u t a) u = some a := by
  rw [pendingAnswer, setPending, mapGet_mapSet_self]
  exact dictGet_pending t a

lemma pendingAnswer_mapDel_self (m : UserState) (u : Nat) :
    pendingAnswer (mapDel m u) u = none := by
  rw [pendingAnswer, mapGet_mapDel_self]
  rfl

/-- The two possible answer replies are distinct, whatever letter the
incorrect one embeds. -/
lemma incorrect_ne_correct (x : Str) : incorrectReply x ≠ correctReply := by
  intro h
  have h1 : (incorrectReply x).head? = some '❌' := rfl
  rw [h] at h1
  exact absurd h1 (by decide)

/-! ### Claim theorems -/

/-- C5: immediately after setPending(u, t, a), takeIfPending(u) returns
the session (topic t, answer a) and removes the entry; a second immediate
takeIfPending(u) returns absent — the session is consumed exactly once. -/
theorem C5_take_once (m : UserState) (u : Nat) (t a : Str) :
    takeIfPending (setPending m u t a) u
      = (some [("topic".data, t), ("answer".data, a)], mapDel m u)
    ∧ (takeIfPending (takeIfPending (setPending m u t a) u).2 u).1 = none := by
  have h1 : takeIfPending (setPending m u t a) u
      = (some [("topic".data, t), ("answer".data, a)], mapDel m u) := by
    simp only [takeIfPending, setPending, mapGet_mapSet_self]
    rw [mapDel_mapSet]
  refine ⟨h1, ?_⟩
  rw [h1]
  simp only [takeIfPending, mapGet_mapDel_self]

/-- C7 counterexample: when the cache already holds a record for the
topic, putQuiz followed by getQuiz returns the older stored pair, not the
pair just written — find_one returns the first matching record. -/
theorem C7_dup_cex :
    getQuiz (putQuiz ⟨[], [("loops".data, "old question".data, "B".data)]⟩
        ("loops".data) ("new question".data) ("C".data)) ("loops".data)
      = some ("old question".data, "B".data)
    ∧ getQuiz (putQuiz ⟨[], [("loops".data, "old question".data, "B".data)]⟩
        ("loops".data) ("new question".data) ("C".data)) ("loops".data)
      ≠ some ("new question".data, "C".data) := by
  decide

/-- C7 amended: putQuiz(T, q, a) followed by getQuiz(T) returns (q, a)
unchanged, provided the cache held no record for T beforehand (which is
the only situation in which the program calls putQuiz). -/
theorem C7_roundtrip (c : CacheState) (topic q a : Str)
    (h : getQuiz c topic = none) :
    getQuiz (putQuiz c topic q a) topic = some (q, a) := by
  have h' := h
  rw [getQuiz, findOneQuiz] at h'
  have h0 : c.quizzes.find? (fun p => p.1 == topic) = none :=
    Option.map_eq_none'.mp h'
  rw [getQuiz, putQuiz, findOneQuiz]
  simp only []
  rw [find_app_none h0,
    @List.find?_cons_of_pos (Str × Str × Str) (fun p => p.1 == topic)
      (topic, q, a) [] (by simp)]
  rfl

/-- C7 witness: round trip through an initially empty cache. -/
theorem C7_roundtrip_w :
    getQuiz (putQuiz ⟨[], []⟩ ("loops".data) ("Q?".data) ("B".data)) ("loops".data)
      = some ("Q?".data, "B".data) :=
  C7_roundtrip ⟨[], []⟩ ("loops".data) ("Q?".data) ("B".data) rfl

/-- C3: for a topic absent from both caches, a collaborator failure makes
summarize_text return the error-marker string embedding the reason, and
generate_quiz return the fixed pair with answer "A"; in both cases the
cache state is returned unchanged — nothing is written. -/
theorem C3_error_uncached (st : CacheState) (topic e₁ e₂ : Str)
    (hs : findOneSummary st.summaries topic = none)
    (hq : findOneQuiz st.quizzes topic = none) :
    summarize_text st topic (Except.error e₁)
      = ⟨"❌ Error during summarization: ".data ++ e₁, st, true⟩
    ∧ generate_quiz st topic (Except.error e₂)
      = ⟨"❌ Error generating quiz.".data, "A".data, st, true⟩ := by
  constructor
  · simp only [summarize_text, hs]
  · simp only [generate_quiz, hq]

/-- C3 witness at a concrete empty cache and a timeout failure. -/
theorem C3_error_uncached_w :
    summarize_text ⟨[], []⟩ ("loops".data) (Except.error ("Timeout".data))
      = ⟨"❌ Error during summarization: ".data ++ "Timeout".data, ⟨[], []⟩, true⟩
    ∧ generate_quiz ⟨[], []⟩ ("loops".data) (Except.error ("Timeout".data))
      = ⟨"❌ Error generating quiz.".data, "A".data, ⟨[], []⟩, true⟩ :=
  C3_error_uncached ⟨[], []⟩ ("loops".data) ("Timeout".data) ("Timeout".data) rfl rfl

/-- C2 counterexample: if the first generateSummary call fails at the
collaborator, nothing is cached, so an immediately following second call
issues a fresh collaborator request and can return a different string. -/
theorem C2_error_cex :
    (summarize_text (summarize_text ⟨[], []⟩ ("loops".data)
        (Except.error ("Timeout".data))).newState ("loops".data)
        (Except.ok ("Loops repeat.".data))).calledLLM = true
    ∧ (summarize_text (summarize_text ⟨[], []⟩ ("loops".data)
        (Except.error ("Timeout".data))).newState ("loops".data)
        (Except.ok ("Loops repeat.".data))).summary
      ≠ (summarize_text ⟨[], []⟩ ("loops".data) (Except.error ("Timeout".data))).summary := by
  decide

/-- C2 amended: when the first call hits the cache or its collaborator
call succeeds, a second generateSummary call for the same topic returns
the identical string, issues no collaborator request, and leaves the
cache unchanged. -/
theorem C2_cache_hit_determinism (st : CacheState) (topic : Str)
    (r₁ r₂ : Except Str Str)
    (h : (∃ raw, r₁ = Except.ok raw) ∨ (findOneSummary st.summaries topic).isSome) :
    (summarize_text (summarize_text st topic r₁).newState topic r₂).summary
      = (summarize_text st topic r₁).summary
    ∧ (summarize_text (summarize_text st topic r₁).newState topic r₂).calledLLM = false
    ∧ (summarize_text (summarize_text st topic r₁).newState topic r₂).newState
      = (summarize_text st topic r₁).newState := by
  cases hc : findOneSummary st.summaries topic with
  | some s => simp [summarize_text, hc]
  | none =>
    obtain ⟨raw, rfl⟩ := h.resolve_right (by simp [hc])
    have h1 : summarize_text st topic (Except.ok raw)
        = ⟨pyStrip raw, ⟨st.summaries ++ [(topic, pyStrip raw)], st.quizzes⟩, true⟩ := by
      simp [summarize_text, hc]
    have hc' := hc
    rw [findOneSummary] at hc'
    have h0 : st.summaries.find? (fun p => p.1 == topic) = none :=
      Option.map_eq_none'.mp hc'
    have hfind : findOneSummary (st.summaries ++ [(topic, pyStrip raw)]) topic
        = some (pyStrip raw) := by
      rw [findOneSummary, find_app_none h0,
        @List.find?_cons_of_pos (Str × Str) (fun p => p.1 == topic)
          (topic, pyStrip raw) [] (by simp)]
      rfl
    have h2 : summarize_text (⟨st.summaries ++ [(topic, pyStrip raw)], st.quizzes⟩ : CacheState)
          topic r₂
        = ⟨pyStrip raw, ⟨st.summaries ++ [(topic, pyStrip raw)], st.quizzes⟩, false⟩ := by
      simp [summarize_text, hfind]
    simp only [h1]
    simp only [h2]
    simp

/-- C2 witness: a successful first call at an empty cache. -/
theorem C2_cache_hit_determinism_w :
    (summarize_text (summarize_text ⟨[], []⟩ ("loops".data)
        (Except.ok ("Loops repeat.".data))).newState ("loops".data)
        (Except.error ("Timeout".data))).summary
      = (summarize_text ⟨[], []⟩ ("loops".data) (Except.ok ("Loops repeat.".data))).summary
    ∧ (summarize_text (summarize_text ⟨[], []⟩ ("loops".data)
        (Except.ok ("Loops repeat.".data))).newState ("loops".data)
        (Except.error ("Timeout".data))).calledLLM = false
    ∧ (summarize_text (summarize_text ⟨[], []⟩ ("loops".data)
        (Except.ok ("Loops repeat.".data))).newState ("loops".data)
        (Except.error ("Timeout".data))).newState
      = (summarize_text ⟨[], []⟩ ("loops".data) (Except.ok ("Loops repeat.".data))).newState :=
  C2_cache_hit_determinism ⟨[], []⟩ ("loops".data) (Except.ok ("Loops repeat.".data))
    (Except.error ("Timeout".data)) (Or.inl ⟨"Loops repeat.".data, rfl⟩)

/-- C1 counterexample: on a cache miss the returned answer letter is
whatever text follows "Answer:" — here "Z", which is not in {A,B,C,D}. -/
theorem C1_letter_cex :
    (generate_quiz ⟨[], []⟩ ("loops".data)
        (Except.ok ("What is a loop?\nAnswer: Z".data))).answer = "Z".data
    ∧ ¬ ((generate_quiz ⟨[], []⟩ ("loops".data)
        (Except.ok ("What is a loop?\nAnswer: Z".data))).answer = "A".data
      ∨ (generate_quiz ⟨[], []⟩ ("loops".data)
        (Except.ok ("What is a loop?\nAnswer: Z".data))).answer = "B".data
      ∨ (generate_quiz ⟨[], []⟩ ("loops".data)
        (Except.ok ("What is a loop?\nAnswer: Z".data))).answer = "C".data
      ∨ (generate_quiz ⟨[], []⟩ ("loops".data)
        (Except.ok ("What is a loop?\nAnswer: Z".data))).answer = "D".data) := by
  decide

/-- C1 amended: on a cache miss with a successful completion, the response
is split on the literal "Answer:": if the marker is absent the question is
the whole trimmed response and the answer letter is exactly "A"; if the
marker is present (first occurrence displayed, the remainder marker-free)
the question is the text before it, trimmed, and the answer letter is the
text after it, trimmed and upper-cased — with no guarantee that this
letter lies in {A,B,C,D}. -/
theorem C1_parse (st : CacheState) (topic raw q b : Str)
    (hmiss : findOneQuiz st.quizzes topic = none) :
    (¬ answerMarker <:+: pyStrip raw →
      generate_quiz st topic (Except.ok raw)
        = ⟨pyStrip raw, "A".data,
           ⟨st.summaries, st.quizzes ++ [(topic, pyStrip raw, "A".data)]⟩, true⟩)
    ∧ (pyStrip raw = q ++ (answerMarker ++ b) →
      ¬ answerMarker <:+: (q ++ answerMarker.dropLast) →
      ¬ answerMarker <:+: b →
      generate_quiz st topic (Except.ok raw)
        = ⟨pyStrip q, pyUpper (pyStrip b),
           ⟨st.summaries, st.quizzes ++ [(topic, pyStrip q, pyUpper (pyStrip b))]⟩, true⟩) := by
  constructor
  · intro hno
    have hp : pySplit answerMarker (pyStrip raw) = [pyStrip raw] :=
      pySplit_single _ _ hno
    simp only [generate_quiz, hmiss]
    rw [hp]
    simp [pyStrip_idem]
  · intro hdec h1 h2
    have hsep : answerMarker ≠ [] := by decide
    have hp : pySplit answerMarker (pyStrip raw) = [q, b] := by
      rw [hdec, pySplit_first answerMarker b q hsep h1,
        pySplit_single answerMarker b h2]
    simp only [generate_quiz, hmiss]
    rw [hp]
    simp

/-- C1 witness: a lower-case letter after the marker comes back
upper-cased, and the question is the trimmed text before the marker. -/
theorem C1_parse_w :
    generate_quiz ⟨[], []⟩ ("loops".data) (Except.ok ("What is 1+1?\nAnswer: b".data))
      = ⟨pyStrip ("What is 1+1?\n".data), pyUpper (pyStrip (" b".data)),
         ⟨[], [(("loops".data), pyStrip ("What is 1+1?\n".data), pyUpper (pyStrip (" b".data)))]⟩,
         true⟩ :=
  (C1_parse ⟨[], []⟩ ("loops".data) ("What is 1+1?\nAnswer: b".data)
      ("What is 1+1?\n".data) (" b".data) rfl).2 (by decide) (by decide) (by decide)

/-- C9: when the response holds the marker twice, the cached and returned
answer letter is the trimmed upper-cased text strictly between the first
and second occurrences, and the question is the text before the first. -/
theorem C9_between_markers (st : CacheState) (topic raw q b c : Str)
    (hmiss : findOneQuiz st.quizzes topic = none)
    (hdec : pyStrip raw = q ++ (answerMarker ++ (b ++ (answerMarker ++ c))))
    (h1 : ¬ answerMarker <:+: (q ++ answerMarker.dropLast))
    (h2 : ¬ answerMarker <:+: (b ++ answerMarker.dropLast)) :
    generate_quiz st topic (Except.ok raw)
      = ⟨pyStrip q, pyUpper (pyStrip b),
         ⟨st.summaries, st.quizzes ++ [(topic, pyStrip q, pyUpper (pyStrip b))]⟩, true⟩ := by
  have hsep : answerMarker ≠ [] := by decide
  have hp : pySplit answerMarker (pyStrip raw)
      = q :: b :: pySplit answerMarker c := by
    rw [hdec, pySplit_first answerMarker (b ++ (answerMarker ++ c)) q hsep h1,
      pySplit_first answerMarker c b hsep h2]
  simp only [generate_quiz, hmiss]
  rw [hp]
  simp

/-- C9 witness: with two markers the letter taken is the one between
them ("b", upper-cased to "B"), not the text after the last marker. -/
theorem C9_between_markers_w :
    generate_quiz ⟨[], []⟩ ("loops".data)
        (Except.ok ("Q1?\nAnswer: b\nAnswer: c".data))
      = ⟨pyStrip ("Q1?\n".data), pyUpper (pyStrip (" b\n".data)),
         ⟨[], [(("loops".data), pyStrip ("Q1?\n".data), pyUpper (pyStrip (" b\n".data)))]⟩,
         true⟩ :=
  C9_between_markers ⟨[], []⟩ ("loops".data) ("Q1?\nAnswer: b\nAnswer: c".data)
    ("Q1?\n".data) (" b\n".data) (" c".data) rfl (by decide) (by decide) (by decide)

lemma mapSet_mapSet (m : UserState) (u : Nat) (s₁ s₂ : Session) :
    mapSet (mapSet m u s₁) u s₂ = mapSet m u s₂ := by
  show (u, s₂) :: mapDel (mapSet m u s₁) u = mapSet m u s₂
  rw [mapDel_mapSet]
  rfl

/-- Evaluation of handle_message when a pending session with an answer
field exists: one comparison reply, session deleted, caches untouched. -/
lemma handle_message_pending (st : BotState) (uid : Nat) (text0 ans : Str)
    (r₁ r₂ : Except Str Str) (h : pendingAnswer st.user_state uid = some ans) :
    handle_message st uid text0 r₁ r₂
      = ⟨[if pyUpper (pyStrip text0) = pyUpper (pyStrip ans) then correctReply
          else incorrectReply (pyUpper (pyStrip ans))],
         ⟨st.caches, mapDel st.user_state uid⟩⟩ := by
  have h1 : handle_message st uid text0 r₁ r₂
      = ⟨[if pyUpper (pyStrip (pyStrip text0)) = pyUpper (pyStrip ans) then correctReply
          else incorrectReply (pyUpper (pyStrip ans))],
         ⟨st.caches, mapDel st.user_state uid⟩⟩ := by
    simp only [handle_message, h]
  rw [pyStrip_idem] at h1
  exact h1

/-- Evaluation of handle_message when no pending session (with an answer
field) exists: the text becomes a topic, four replies are sent, and a
fresh session is stored. -/
lemma handle_message_topic (st : BotState) (uid : Nat) (text0 : Str)
    (r₁ r₂ : Except Str Str) (h : pendingAnswer st.user_state uid = none) :
    handle_message st uid text0 r₁ r₂
      = ⟨[learningReply (pyLower (pyStrip text0)),
          (summarize_text st.caches (pyLower (pyStrip text0)) r₁).summary,
          quizIntroReply,
          (generate_quiz (summarize_text st.caches (pyLower (pyStrip text0)) r₁).newState
            (pyLower (pyStrip text0)) r₂).question],
         ⟨(generate_quiz (summarize_text st.caches (pyLower (pyStrip text0)) r₁).newState
            (pyLower (pyStrip text0)) r₂).newState,
          setPending st.user_state uid (pyLower (pyStrip text0))
            (generate_quiz (summarize_text st.caches (pyLower (pyStrip text0)) r₁).newState
              (pyLower (pyStrip text0)) r₂).answer⟩⟩ := by
  simp only [handle_message, h, setPending]

/-- C4: with a pending session holding answer ans, handle_message sends
the correct reply exactly when the stripped upper-cased text matches the
stripped upper-cased ans, sends the incorrect reply naming ans otherwise,
and in both cases unconditionally deletes the user's session, leaving the
caches untouched. -/
theorem C4_answer_flow (st : BotState) (uid : Nat) (text0 ans : Str)
    (r₁ r₂ : Except Str Str)
    (h : pendingAnswer st.user_state uid = some ans) :
    handle_message st uid text0 r₁ r₂
      = ⟨[if pyUpper (pyStrip text0) = pyUpper (pyStrip ans) then correctReply
          else incorrectReply (pyUpper (pyStrip ans))],
         ⟨st.caches, mapDel st.user_state uid⟩⟩
    ∧ ((handle_message st uid text0 r₁ r₂).replies = [correctReply]
        ↔ pyUpper (pyStrip text0) = pyUpper (pyStrip ans)) := by
  have h1 := handle_message_pending st uid text0 ans r₁ r₂ h
  refine ⟨h1, ?_⟩
  rw [h1]
  by_cases hc : pyUpper (pyStrip text0) = pyUpper (pyStrip ans)
  · simp [hc]
  · rw [if_neg hc]
    refine ⟨fun hbad => ?_, fun hcc => absurd hcc hc⟩
    injection hbad with h2 h3
    exact absurd h2 (incorrect_ne_correct _)

/-- C4 witness: pending answer "B", user sends "b". -/
theorem C4_answer_flow_w :
    handle_message ⟨⟨[], []⟩, [(1, [("topic".data, "loops".data), ("answer".data, "B".data)])]⟩
        1 ("b".data) (Except.ok []) (Except.ok [])
      = ⟨[if pyUpper (pyStrip ("b".data)) = pyUpper (pyStrip ("B".data)) then correctReply
          else incorrectReply (pyUpper (pyStrip ("B".data)))],
         ⟨⟨[], []⟩, mapDel [(1, [("topic".data, "loops".data), ("answer".data, "B".data)])] 1⟩⟩ :=
  (C4_answer_flow ⟨⟨[], []⟩, [(1, [("topic".data, "loops".data), ("answer".data, "B".data)])]⟩
    1 ("b".data) ("B".data) (Except.ok []) (Except.ok []) (by decide)).1

/-- C8: with no pending session, any text — even a single letter — is
handled as a new topic equal to the stripped text lower-cased, and
handling ends by setting a pending session for the user carrying the
generated quiz answer. -/
theorem C8_new_topic (st : BotState) (uid : Nat) (text0 : Str)
    (r₁ r₂ : Except Str Str)
    (h : pendingAnswer st.user_state uid = none) :
    handle_message st uid text0 r₁ r₂
      = ⟨[learningReply (pyLower (pyStrip text0)),
          (summarize_text st.caches (pyLower (pyStrip text0)) r₁).summary,
          quizIntroReply,
          (generate_quiz (summarize_text st.caches (pyLower (pyStrip text0)) r₁).newState
            (pyLower (pyStrip text0)) r₂).question],
         ⟨(generate_quiz (summarize_text st.caches (pyLower (pyStrip text0)) r₁).newState
            (pyLower (pyStrip text0)) r₂).newState,
          setPending st.user_state uid (pyLower (pyStrip text0))
            (generate_quiz (summarize_text st.caches (pyLower (pyStrip text0)) r₁).newState
              (pyLower (pyStrip text0)) r₂).answer⟩⟩
    ∧ pendingAnswer (handle_message st uid text0 r₁ r₂).state.user_state uid
      = some (generate_quiz (summarize_text st.caches (pyLower (pyStrip text0)) r₁).newState
          (pyLower (pyStrip text0)) r₂).answer := by
  have h1 := handle_message_topic st uid text0 r₁ r₂ h
  refine ⟨h1, ?_⟩
  rw [h1]
  exact pendingAnswer_setPending _ _ _ _

/-- C8 witness: the letter "A" with no pending session becomes the topic
"a" and a fresh session is stored. -/
theorem C8_new_topic_w :
    pendingAnswer (handle_message ⟨⟨[], []⟩, []⟩ 1 ("A".data)
        (Except.ok ("Text.".data)) (Except.ok ("Q?\nAnswer: b".data))).state.user_state 1
      = some (generate_quiz (summarize_text ⟨[], []⟩ (pyLower (pyStrip ("A".data)))
          (Except.ok ("Text.".data))).newState (pyLower (pyStrip ("A".data)))
          (Except.ok ("Q?\nAnswer: b".data))).answer :=
  (C8_new_topic ⟨⟨[], []⟩, []⟩ 1 ("A".data) (Except.ok ("Text.".data))
    (Except.ok ("Q?\nAnswer: b".data)) rfl).2

/-- C6 counterexample: a user who sends a second topic request while a
quiz is pending does NOT trigger a second setPending — the controller
consumes the second message as a quiz answer: it replies "incorrect,
the correct answer was B" and clears the session, so afterwards no
topic's answer is accepted. -/
theorem C6_second_message_cex :
    (handle_message (handle_message ⟨⟨[], []⟩, []⟩ 1 ("loops".data)
        (Except.ok ("Loops repeat.".data)) (Except.ok ("Q?\nAnswer: B".data))).state
        1 ("closures".data) (Except.ok ("Text.".data)) (Except.ok ("R?\nAnswer: C".data))).state.user_state
      = []
    ∧ (handle_message (handle_message ⟨⟨[], []⟩, []⟩ 1 ("loops".data)
        (Except.ok ("Loops repeat.".data)) (Except.ok ("Q?\nAnswer: B".data))).state
        1 ("closures".data) (Except.ok ("Text.".data)) (Except.ok ("R?\nAnswer: C".data))).replies
      = [incorrectReply ("B".data)] := by
  decide

/-- C6 amended: the Session Tracker's setPending is an unconditional
overwrite — two direct setPending calls for the same user leave exactly
the second session, with no error and no merge, and with that map
installed only the second answer letter is accepted as correct.  (A
second topic request sent through the controller, however, never reaches
setPending: it is consumed as a quiz answer — see the counterexample.) -/
theorem C6_overwrite (m : UserState) (u : Nat) (t₁ a₁ t₂ a₂ : Str)
    (c : CacheState) (text0 : Str) (r₁ r₂ : Except Str Str) :
    setPending (setPending m u t₁ a₁) u t₂ a₂ = setPending m u t₂ a₂
    ∧ ((handle_message ⟨c, setPending (setPending m u t₁ a₁) u t₂ a₂⟩ u text0 r₁ r₂).replies
        = [correctReply]
      ↔ pyUpper (pyStrip text0) = pyUpper (pyStrip a₂)) := by
  have hover : setPending (setPending m u t₁ a₁) u t₂ a₂ = setPending m u t₂ a₂ :=
    mapSet_mapSet m u _ _
  refine ⟨hover, ?_⟩
  have hpend : pendingAnswer
      ((⟨c, setPending (setPending m u t₁ a₁) u t₂ a₂⟩ : BotState)).user_state u = some a₂ := by
    show pendingAnswer (setPending (setPending m u t₁ a₁) u t₂ a₂) u = some a₂
    rw [hover]
    exact pendingAnswer_setPending m u t₂ a₂
  rw [handle_message_pending _ u text0 a₂ r₁ r₂ hpend]
  by_cases hc : pyUpper (pyStrip text0) = pyUpper (pyStrip a₂)
  · simp [hc]
  · rw [if_neg hc]
    refine ⟨fun hbad => ?_, fun hcc => absurd hcc hc⟩
    injection hbad with h2 h3
    exact absurd h2 (incorrect_ne_correct _)

/-- Invariant of the session map: every stored entry carries an answer
field (line 135 always writes topic and answer together). -/
def SessionsWF (m : UserState) : Prop :=
  ∀ p ∈ m, (dictGet p.2 ("answer".data)).isSome

lemma pendingAnswer_isSome_of_WF (m : UserState) (uid : Nat) (s : Session)
    (hwf : SessionsWF m) (hget : mapGet m uid = some s) :
    (pendingAnswer m uid).isSome := by
  rw [pendingAnswer, hget]
  rw [mapGet] at hget
  obtain ⟨p, hfind, hsnd⟩ := Option.map_eq_some'.mp hget
  have hmem := List.mem_of_find?_eq_some hfind
  have := hwf p hmem
  rw [hsnd] at this
  exact this

/-- C10: every entry the program ever stores in the session map carries
an answer field; the invariant is preserved by handle_message (the only
mutator), under it any user with a map entry has a pending answer, and
such a user is routed to the answer path (a single reply), never to the
new-topic path. -/
theorem C10_answer_field (st : BotState) (uid : Nat) (text0 : Str)
    (r₁ r₂ : Except Str Str) (m : UserState) (s : Session) :
    (SessionsWF st.user_state → SessionsWF (handle_message st uid text0 r₁ r₂).state.user_state)
    ∧ (SessionsWF m → mapGet m uid = some s → (pendingAnswer m uid).isSome)
    ∧ (SessionsWF st.user_state → mapGet st.user_state uid = some s →
        (handle_message st uid text0 r₁ r₂).replies.length = 1) := by
  refine ⟨?_, fun hwf hget => pendingAnswer_isSome_of_WF m uid s hwf hget, ?_⟩
  · intro hwf
    cases hp : pendingAnswer st.user_state uid with
    | some ans =>
      rw [handle_message_pending st uid text0 ans r₁ r₂ hp]
      intro p hmem
      exact hwf p (List.mem_filter.mp hmem).1
    | none =>
      rw [handle_message_topic st uid text0 r₁ r₂ hp]
      intro p hmem
      cases List.mem_cons.mp hmem with
      | inl heq =>
        rw [heq]
        rw [dictGet_pending]
        rfl
      | inr htail =>
        exact hwf p (List.mem_filter.mp htail).1
  · intro hwf hget
    obtain ⟨ans, hans⟩ :=
      Option.isSome_iff_exists.mp (pendingAnswer_isSome_of_WF st.user_state uid s hwf hget)
    rw [handle_message_pending st uid text0 ans r₁ r₂ hans]
    rfl

/-- C10 witness: a user with a stored session gets exactly one reply. -/
theorem C10_answer_field_w :
    (handle_message ⟨⟨[], []⟩, [(1, [("topic".data, "loops".data), ("answer".data, "B".data)])]⟩
        1 ("x".data) (Except.ok []) (Except.ok [])).replies.length = 1 :=
  (C10_answer_field
    ⟨⟨[], []⟩, [(1, [("topic".data, "loops".data), ("answer".data, "B".data)])]⟩
    1 ("x".data) (Except.ok []) (Except.ok [])
    [(1, [("topic".data, "loops".data), ("answer".data, "B".data)])]
    [("topic".data, "loops".data), ("answer".data, "B".data)]).2.2
    (by unfold SessionsWF; decide) (by decide)
